import Mathlib

/-!
# Verification of the AgentCraft flow/graph editor core

A shallow embedding of `src/A.C.A/AgentCraftAcademy/src/flow.js`:
the `FlowDiagram` class (graph model, validation, undo/redo, viewport
zoom, structural interchange) together with the `AgentNode` and
`AgentConnection` classes.

Modelling conventions:
* JavaScript `Map` objects (`this.agents`, `this.connections`) are
  embedded as insertion-ordered association lists `List (String × α)`;
  `Map.set` replaces in place when the key exists and appends otherwise,
  `Map.delete` removes the entry, iteration follows list order — these
  match the `Map` semantics the source relies on.
* Numeric coordinates and viewport state use `Rat` (exact arithmetic);
  the one claim doing real arithmetic (zoom anchoring) diverges by a
  large rational amount, far beyond binary64 rounding.
* Nondeterministic id generation (`Date.now()` + `Math.random()`) is
  parametrised: every operation that generates a fresh id receives it
  as an argument.
* Rendering, DOM access, toast notifications and event emission have no
  model-visible effect and are omitted.
-/

set_option autoImplicit false

namespace Flow

/-- An agent node, mirroring the fields of class `AgentNode` in flow.js
(`id`, `type`, `x`, `y`, `name`, `status`, `capabilities`, `createdAt`). -/
structure AgentNode where
  id : String
  type : String
  x : Rat
  y : Rat
  name : String
  status : String
  capabilities : List String
  createdAt : Nat
  deriving DecidableEq, Repr

/-- A connection (edge), mirroring class `AgentConnection` in flow.js
(`id`, `sourceId`, `targetId`, `type`, `createdAt`). -/
structure AgentConnection where
  id : String
  sourceId : String
  targetId : String
  type : String
  createdAt : Nat
  deriving DecidableEq, Repr

/-- A history entry: the two action kinds the source pushes onto
`undoStack`/`redoStack` (`connection-created`, `connection-removed`),
each carrying the connection object. -/
inductive HistoryAction where
  | connectionCreated (connection : AgentConnection)
  | connectionRemoved (connection : AgentConnection)
  deriving DecidableEq, Repr

/-- JavaScript `Map.get`: the value stored under `k`, if any. -/
def mapGet {α : Type} (m : List (String × α)) (k : String) : Option α :=
  (m.find? (fun p => p.1 == k)).map Prod.snd

/-- JavaScript `Map.set`: replace in place when the key is present,
append otherwise (insertion order preserved). -/
def mapSet {α : Type} (m : List (String × α)) (k : String) (v : α) :
    List (String × α) :=
  if m.any (fun p => p.1 == k) then
    m.map (fun p => if p.1 == k then (k, v) else p)
  else
    m ++ [(k, v)]

/-- JavaScript `Map.delete`: drop the entry with key `k`. -/
def mapDelete {α : Type} (m : List (String × α)) (k : String) :
    List (String × α) :=
  m.filter (fun p => !(p.1 == k))

/-- The model-relevant state of class `FlowDiagram`: the two id-keyed
maps, the current selection, the two history stacks and the viewport
(`offsetX`, `offsetY`, `scale`).  Stacks are lists with the top at the
head (`push` = cons, `pop` = uncons), mirroring JS array push/pop at
the end. -/
structure FlowDiagram where
  agents : List (String × AgentNode)
  connections : List (String × AgentConnection)
  selectedAgent : Option String
  undoStack : List HistoryAction
  redoStack : List HistoryAction
  offsetX : Rat
  offsetY : Rat
  scale : Rat
  deriving DecidableEq, Repr

/-- `AgentNode.generateName`: default display name per type. -/
def generateName (type : String) : String :=
  if type == "planner" then "PlannerAgent"
  else if type == "executor" then "ExecutorAgent"
  else if type == "evaluator" then "EvaluatorAgent"
  else "UnknownAgent"

/-- `AgentNode.getDefaultCapabilities`. -/
def getDefaultCapabilities (type : String) : List String :=
  if type == "planner" then ["planning", "reasoning", "strategy"]
  else if type == "executor" then ["execution", "action", "implementation"]
  else if type == "evaluator" then ["evaluation", "feedback", "assessment"]
  else ["basic"]

/-- The `AgentNode` constructor: `name = name || generateName(type)`
(a `null`/empty name falls back to the generated default), status
`idle`, default capabilities; the generated id and `Date.now()` are
parameters. -/
def newAgentNode (type : String) (x y : Rat) (name : Option String)
    (freshId : String) (now : Nat) : AgentNode :=
  { id := freshId
    type := type
    x := x
    y := y
    name := match name with
            | some n => if n == "" then generateName type else n
            | none => generateName type
    status := "idle"
    capabilities := getDefaultCapabilities type
    createdAt := now }

/-- The `AgentConnection` constructor. -/
def newAgentConnection (sourceId targetId type : String)
    (freshId : String) (now : Nat) : AgentConnection :=
  { id := freshId
    sourceId := sourceId
    targetId := targetId
    type := type
    createdAt := now }

/-- `FlowDiagram.createAgent`: build a node and `set` it under its id. -/
def createAgent (d : FlowDiagram) (type : String) (x y : Rat)
    (freshId : String) (now : Nat) : FlowDiagram × AgentNode :=
  let agent := newAgentNode type x y none freshId now
  ({ d with agents := mapSet d.agents agent.id agent }, agent)

/-- `FlowDiagram.removeAgent`: no-op when the id is unknown; otherwise
delete every connection whose `sourceId` or `targetId` equals the id,
delete the node, and clear the selection when it pointed at the node. -/
def removeAgent (d : FlowDiagram) (agentId : String) : FlowDiagram :=
  match mapGet d.agents agentId with
  | none => d
  | some _ =>
    { d with
      connections := d.connections.filter
        (fun p => !(p.2.sourceId == agentId || p.2.targetId == agentId))
      agents := mapDelete d.agents agentId
      selectedAgent :=
        if d.selectedAgent == some agentId then none else d.selectedAgent }

/-- `FlowDiagram.addToUndoStack`: push the action and clear the redo
stack. -/
def addToUndoStack (d : FlowDiagram) (action : HistoryAction) : FlowDiagram :=
  { d with undoStack := action :: d.undoStack, redoStack := [] }

/-- The duplicate-connection check of `FlowDiagram.createConnection`:
an edge with the same ordered `(sourceId, targetId)` pair exists,
irrespective of its `type`. -/
def hasDuplicate (conns : List (String × AgentConnection))
    (sourceId targetId : String) : Bool :=
  conns.any (fun p => p.2.sourceId == sourceId && p.2.targetId == targetId)

/-- `FlowDiagram.createConnection`: reject (return `none`, state
unchanged) a self-connection or a duplicate ordered pair; otherwise
store the new connection, record a `connection-created` history entry
and return the connection.  The source performs no check that
`sourceId` or `targetId` reference live nodes. -/
def createConnection (d : FlowDiagram) (sourceId targetId type : String)
    (freshId : String) (now : Nat) : FlowDiagram × Option AgentConnection :=
  if sourceId == targetId then (d, none)
  else if hasDuplicate d.connections sourceId targetId then (d, none)
  else
    let connection := newAgentConnection sourceId targetId type freshId now
    let d1 := { d with connections := mapSet d.connections connection.id connection }
    (addToUndoStack d1 (HistoryAction.connectionCreated connection),
     some connection)

/-- `FlowDiagram.removeConnection`: no-op when unknown; otherwise delete
and record a `connection-removed` history entry. -/
def removeConnection (d : FlowDiagram) (connectionId : String) : FlowDiagram :=
  match mapGet d.connections connectionId with
  | none => d
  | some connection =>
    addToUndoStack
      { d with connections := mapDelete d.connections connectionId }
      (HistoryAction.connectionRemoved connection)

/-- `FlowDiagram.undo`: no-op on an empty undo stack; otherwise pop the
action, push it onto the redo stack, and apply its inverse —
`connection-created` deletes the stored connection's id,
`connection-removed` re-`set`s the stored connection (unconditionally,
with no check on its endpoints). -/
def undo (d : FlowDiagram) : FlowDiagram :=
  match d.undoStack with
  | [] => d
  | action :: rest =>
    let d1 := { d with undoStack := rest, redoStack := action :: d.redoStack }
    match action with
    | HistoryAction.connectionCreated c =>
      { d1 with connections := mapDelete d1.connections c.id }
    | HistoryAction.connectionRemoved c =>
      { d1 with connections := mapSet d1.connections c.id c }

/-- `FlowDiagram.redo`: no-op on an empty redo stack; otherwise pop the
action, push it back onto the undo stack, and re-apply the forward
effect — `connection-created` re-`set`s the stored connection
(unconditionally), `connection-removed` deletes it. -/
def redo (d : FlowDiagram) : FlowDiagram :=
  match d.redoStack with
  | [] => d
  | action :: rest =>
    let d1 := { d with redoStack := rest, undoStack := action :: d.undoStack }
    match action with
    | HistoryAction.connectionCreated c =>
      { d1 with connections := mapSet d1.connections c.id c }
    | HistoryAction.connectionRemoved c =>
      { d1 with connections := mapDelete d1.connections c.id }

/-- The result record of `FlowDiagram.validateFlow`. -/
structure ValidationResult where
  isValid : Bool
  errors : List String
  warnings : List String
  deriving DecidableEq, Repr

/-- The `connectedAgents` set built by `validateFlow`: every id that
occurs as `sourceId` or `targetId` of some connection (membership in
this list models membership in the JS `Set`). -/
def connectedAgentIds (conns : List (String × AgentConnection)) : List String :=
  conns.flatMap (fun p => [p.2.sourceId, p.2.targetId])

/-- One step of `hasCycle` inside `FlowDiagram.detectCircularLoops`,
embedded faithfully with the source's bug: the `return true` inside the
`connections.forEach` callback only returns from the callback, so the
recursive verdict is DISCARDED; only the mutations of the shared
`visited` and `recursionStack` sets survive.  The sets are threaded as
lists; `fuel` bounds the recursion depth (each non-trivial frame adds a
new id to `visited`, so any fuel larger than the number of distinct ids
reachable makes the embedding exact). -/
def hasCycleAux (conns : List AgentConnection) :
    Nat → String → List String → List String →
      Bool × List String × List String
  | 0, _, visited, stack => (false, visited, stack)
  | fuel + 1, agentId, visited, stack =>
    if stack.contains agentId then (true, visited, stack)
    else if visited.contains agentId then (false, visited, stack)
    else
      let start : List String × List String :=
        (visited ++ [agentId], stack ++ [agentId])
      let final := conns.foldl
        (fun vs c =>
          if c.sourceId == agentId then
            let r := hasCycleAux conns fuel c.targetId vs.1 vs.2
            (r.2.1, r.2.2)
          else vs)
        start
      (false, final.1, final.2.filter (fun x => !(x == agentId)))

/-- The outer loop of `detectCircularLoops`: `hasCycle` per agent id,
with true short-circuiting at this level and the `visited`/
`recursionStack` sets persisting across iterations. -/
def detectLoopOver (conns : List AgentConnection) (fuel : Nat) :
    List String → List String → List String → Bool
  | [], _, _ => false
  | agentId :: rest, visited, stack =>
    let r := hasCycleAux conns fuel agentId visited stack
    if r.1 then true else detectLoopOver conns fuel rest r.2.1 r.2.2

/-- `FlowDiagram.detectCircularLoops`.  The fuel exceeds every id the
traversal can ever encounter (all agent keys plus both endpoints of
every connection), so exhaustion never occurs. -/
def detectCircularLoops (d : FlowDiagram) : Bool :=
  detectLoopOver (d.connections.map Prod.snd)
    (d.agents.length + 2 * d.connections.length + 1)
    (d.agents.map Prod.fst) [] []

/-- The warning text `Agent "<name>" is not connected`. -/
def notConnectedWarning (name : String) : String :=
  "Agent \"" ++ name ++ "\" is not connected"

/-- `FlowDiagram.validateFlow`: one not-connected warning per agent
absent from the endpoint set, a cycle error when `detectCircularLoops`
reports one, `Missing Planner agent` / `Missing Executor agent` when
the respective type count is zero, and `isValid` iff `errors` is
empty. -/
def validateFlow (d : FlowDiagram) : ValidationResult :=
  let connected := connectedAgentIds d.connections
  let warnings := (d.agents.map Prod.snd).filterMap
    (fun a => if connected.contains a.id then none
              else some (notConnectedWarning a.name))
  let cycleErrors :=
    if detectCircularLoops d then ["Circular loop detected in flow"] else []
  let plannerCount :=
    ((d.agents.map Prod.snd).filter (fun a => a.type == "planner")).length
  let executorCount :=
    ((d.agents.map Prod.snd).filter (fun a => a.type == "executor")).length
  let errors := cycleErrors
    ++ (if plannerCount == 0 then ["Missing Planner agent"] else [])
    ++ (if executorCount == 0 then ["Missing Executor agent"] else [])
  { isValid := errors.isEmpty, errors := errors, warnings := warnings }

/-- `FlowDiagram.getMousePosition`: the model-space point under screen
point `(sx, sy)` (with `sx = clientX - rect.left`,
`sy = clientY - rect.top`): `((sx - offsetX) / scale,
(sy - offsetY) / scale)`. -/
def getMousePosition (d : FlowDiagram) (sx sy : Rat) : Rat × Rat :=
  ((sx - d.offsetX) / d.scale, (sy - d.offsetY) / d.scale)

/-- `FlowDiagram.handleWheel` with the zoom factor as a parameter (the
source fixes it to `0.9` for positive `deltaY` and `1.1` otherwise):
clamp the new scale to `[0.1, 3]`, then recompute the offsets from the
value `getMousePosition` returns at the wheel position — which is the
MODEL-space point, fed into a formula stated for the screen-space
point. -/
def handleWheel (d : FlowDiagram) (sx sy : Rat) (zoomFactor : Rat) :
    FlowDiagram :=
  let newScale := max (1/10 : Rat) (min 3 (d.scale * zoomFactor))
  let mousePos := getMousePosition d sx sy
  { d with
    offsetX := mousePos.1 - (mousePos.1 - d.offsetX) * (newScale / d.scale)
    offsetY := mousePos.2 - (mousePos.2 - d.offsetY) * (newScale / d.scale)
    scale := newScale }

/-- The structural interchange record produced by `FlowDiagram.export`:
node records and connection records (`toJSON` keeps every field, so a
record is embedded as the entity itself) plus the version tag. -/
structure FlowData where
  agents : List AgentNode
  connections : List AgentConnection
  version : String
  deriving DecidableEq, Repr

/-- `FlowDiagram.export` (named `exportFlow`; `export` is reserved in
Lean): the values of both maps, in iteration order, with version
`1.0`. -/
def exportFlow (d : FlowDiagram) : FlowData :=
  { agents := d.agents.map Prod.snd
    connections := d.connections.map Prod.snd
    version := "1.0" }

/-- `AgentNode.fromJSON`: run the constructor on the record's `type`,
`x`, `y`, `name` (so an empty `name` falls back to
`generateName(type)` via `name || ...`), then overwrite `id`,
`status`, `capabilities`, `createdAt` from the record. -/
def AgentNode.fromJSON (data : AgentNode) : AgentNode :=
  let agent := newAgentNode data.type data.x data.y (some data.name)
    data.id data.createdAt
  { agent with
    id := data.id
    status := data.status
    capabilities := data.capabilities
    createdAt := data.createdAt }

/-- `AgentConnection.fromJSON`: constructor on the record's endpoints
and `type`, then overwrite `id` and `createdAt` from the record. -/
def AgentConnection.fromJSON (data : AgentConnection) : AgentConnection :=
  let connection := newAgentConnection data.sourceId data.targetId
    data.type data.id data.createdAt
  { connection with id := data.id, createdAt := data.createdAt }

/-- `FlowDiagram.import` (named `importFlow`; `import` is reserved in
Lean): clear both maps, then `set` each reconstructed node and
connection under its (preserved) id, in record order. -/
def importFlow (d : FlowDiagram) (data : FlowData) : FlowDiagram :=
  let agents := data.agents.foldl
    (fun m a => let agent := AgentNode.fromJSON a; mapSet m agent.id agent) []
  let connections := data.connections.foldl
    (fun m c => let connection := AgentConnection.fromJSON c
                mapSet m connection.id connection) []
  { d with agents := agents, connections := connections }

/-- No-dangling-edge invariant: every connection's `sourceId` and
`targetId` reference live nodes. -/
def NoDangling (d : FlowDiagram) : Prop :=
  ∀ p ∈ d.connections,
    (mapGet d.agents p.2.sourceId).isSome ∧
    (mapGet d.agents p.2.targetId).isSome

instance (d : FlowDiagram) : Decidable (NoDangling d) := by
  unfold NoDangling; infer_instance

/-! ### Concrete fixtures used by witnesses and counterexamples -/

/-- A planner node fixture. -/
def pNode : AgentNode :=
  { id := "a", type := "planner", x := 150, y := 150, name := "P1",
    status := "idle", capabilities := ["planning"], createdAt := 0 }

/-- An executor node fixture. -/
def eNode : AgentNode :=
  { id := "b", type := "executor", x := 350, y := 150, name := "E1",
    status := "idle", capabilities := ["execution"], createdAt := 0 }

/-- An evaluator node fixture. -/
def vNode : AgentNode :=
  { id := "c", type := "evaluator", x := 250, y := 300, name := "V1",
    status := "idle", capabilities := ["evaluation"], createdAt := 0 }

/-- Edge fixtures forming the directed 3-cycle a→b→c→a. -/
def edgeAB : AgentConnection :=
  { id := "e1", sourceId := "a", targetId := "b", type := "data", createdAt := 0 }

/-- Second edge of the 3-cycle fixture. -/
def edgeBC : AgentConnection :=
  { id := "e2", sourceId := "b", targetId := "c", type := "data", createdAt := 0 }

/-- Third edge of the 3-cycle fixture. -/
def edgeCA : AgentConnection :=
  { id := "e3", sourceId := "c", targetId := "a", type := "data", createdAt := 0 }

/-- The empty diagram (fresh `FlowDiagram` state, model-relevant part). -/
def emptyDiagram : FlowDiagram :=
  { agents := [], connections := [], selectedAgent := none,
    undoStack := [], redoStack := [], offsetX := 0, offsetY := 0, scale := 1 }

/-- Diagram with a planner, an executor, an evaluator and the 3-cycle
a→b→c→a; the default role policy is satisfied. -/
def cycleDiagram : FlowDiagram :=
  { emptyDiagram with
    agents := [("a", pNode), ("b", eNode), ("c", vNode)]
    connections := [("e1", edgeAB), ("e2", edgeBC), ("e3", edgeCA)] }

/-- Diagram with a single live node `a`. -/
def singleDiagram : FlowDiagram :=
  { emptyDiagram with agents := [("a", pNode)] }

/-- Diagram with nodes `a`, `b` and no edges. -/
def pairDiagram : FlowDiagram :=
  { emptyDiagram with agents := [("a", pNode), ("b", eNode)] }

/-- Diagram with nodes `a`, `b` and the edge a→b (no dangling edges). -/
def connectedDiagram : FlowDiagram :=
  { emptyDiagram with
    agents := [("a", pNode), ("b", eNode)]
    connections := [("e1", edgeAB)] }

/-- Viewport fixture: `offsetX = 50`, `offsetY = 0`, `scale = 1`. -/
def zoomDiagram : FlowDiagram := { emptyDiagram with offsetX := 50 }

/-- A node whose `name` is the empty string (reachable via
`updateAgentProperty(id, 'name', '')` from the selection form). -/
def emptyNameNode : AgentNode :=
  { id := "a", type := "planner", x := 0, y := 0, name := "",
    status := "idle", capabilities := [], createdAt := 0 }

/-- Diagram holding the empty-named node. -/
def emptyNameDiagram : FlowDiagram :=
  { emptyDiagram with agents := [("a", emptyNameNode)] }

/-- State after `createConnection(a, b)` on `pairDiagram` (edge recorded
in the undo history). -/
def seqState1 : FlowDiagram :=
  (createConnection pairDiagram "a" "b" "data" "c1" 5).1

/-- State after then removing node `a` (cascades the edge away), undoing
and redoing: the sequence of the dangling-edge scenario. -/
def seqState4 : FlowDiagram :=
  redo (undo (removeAgent seqState1 "a"))

/-! ### Association-list (JS `Map`) lemmas -/

theorem mapGet_eq_none_iff {α : Type} (m : List (String × α)) (k : String) :
    mapGet m k = none ↔ ∀ p ∈ m, p.1 ≠ k := by
  simp [mapGet, List.find?_eq_none]

theorem mapGet_map_replace {α : Type} (k : String) (v : α) :
    ∀ (m : List (String × α)), m.any (fun p => p.1 == k) = true →
      mapGet (m.map (fun p => if p.1 == k then (k, v) else p)) k = some v
  | [], h => by simp at h
  | q :: tl, h => by
    by_cases hq : q.1 = k
    · have hfq : (if (q.1 == k) = true then (k, v) else q) = (k, v) := by
        simp [hq]
      simp only [List.map_cons, hfq]
      unfold mapGet
      rw [List.find?_cons_of_pos _ (by simp)]
      rfl
    · have hfq : (if (q.1 == k) = true then (k, v) else q) = q := by
        simp [hq]
      have htl : tl.any (fun p => p.1 == k) = true := by
        simp only [List.any_cons, Bool.or_eq_true] at h
        rcases h with h1 | h1
        · exact absurd (by simpa using h1) hq
        · exact h1
      simp only [List.map_cons, hfq]
      unfold mapGet
      rw [List.find?_cons_of_neg _ (by simp [hq])]
      exact mapGet_map_replace k v tl htl

theorem mapGet_append_single {α : Type} (m : List (String × α)) (k : String)
    (v : α) (h : ∀ p ∈ m, p.1 ≠ k) : mapGet (m ++ [(k, v)]) k = some v := by
  induction m with
  | nil =>
    unfold mapGet
    rw [List.nil_append, List.find?_cons_of_pos _ (by simp)]
    rfl
  | cons q tl ih =>
    unfold mapGet at ih ⊢
    rw [List.cons_append,
      List.find?_cons_of_neg _ (by simp [h q (by simp)])]
    exact ih (fun p hp => h p (by simp [hp]))

theorem mapGet_mapSet_self {α : Type} (m : List (String × α)) (k : String)
    (v : α) : mapGet (mapSet m k v) k = some v := by
  unfold mapSet
  by_cases h : m.any (fun p => p.1 == k) = true
  · rw [if_pos h]
    exact mapGet_map_replace k v m h
  · rw [if_neg h]
    refine mapGet_append_single m k v (fun p hp => ?_)
    intro hpk
    exact h (List.any_eq_true.mpr ⟨p, hp, by simp [hpk]⟩)

theorem mapGet_mapDelete_ne {α : Type} (m : List (String × α))
    (k x : String) (h : x ≠ k) : mapGet (mapDelete m k) x = mapGet m x := by
  induction m with
  | nil => rfl
  | cons q tl ih =>
    by_cases hq : q.1 = k
    · have hstep : mapDelete (q :: tl) k = mapDelete tl k := by
        unfold mapDelete
        rw [List.filter_cons_of_neg (by simp [hq])]
      have hqx : ¬ q.1 = x := fun hx => h (by rw [← hx, hq])
      rw [hstep, ih]
      unfold mapGet
      rw [List.find?_cons_of_neg _ (by simp [hqx])]
    · have hstep : mapDelete (q :: tl) k = q :: mapDelete tl k := by
        unfold mapDelete
        rw [List.filter_cons_of_pos (by simp [hq])]
      rw [hstep]
      by_cases hqx : q.1 = x
      · unfold mapGet
        rw [List.find?_cons_of_pos _ (by simp [hqx]),
          List.find?_cons_of_pos _ (by simp [hqx])]
      · unfold mapGet at ih ⊢
        rw [List.find?_cons_of_neg _ (by simp [hqx]),
          List.find?_cons_of_neg _ (by simp [hqx])]
        exact ih

theorem mapDelete_mapSet_fresh {α : Type} (m : List (String × α))
    (k : String) (v : α) (h : mapGet m k = none) :
    mapDelete (mapSet m k v) k = m := by
  have hall : ∀ p ∈ m, p.1 ≠ k := (mapGet_eq_none_iff m k).mp h
  have hany : ¬ m.any (fun p => p.1 == k) = true := by
    intro hc
    obtain ⟨p, hp, hpk⟩ := List.any_eq_true.mp hc
    exact hall p hp (by simpa using hpk)
  unfold mapSet
  rw [if_neg hany]
  unfold mapDelete
  rw [List.filter_append]
  have h1 : m.filter (fun p => !(p.1 == k)) = m :=
    List.filter_eq_self.mpr (fun p hp => by simpa using hall p hp)
  have h2 : [((k, v) : String × α)].filter (fun p => !(p.1 == k)) = [] := by
    simp
  rw [h1, h2, List.append_nil]

theorem hasDuplicate_mapSet_self (m : List (String × AgentConnection))
    (a b k fid : String) (n : Nat) :
    hasDuplicate (mapSet m fid (newAgentConnection a b k fid n)) a b = true := by
  unfold mapSet
  by_cases h : m.any (fun p => p.1 == fid) = true
  · rw [if_pos h]
    unfold hasDuplicate
    rw [List.any_eq_true]
    obtain ⟨p, hp, hpk⟩ := List.any_eq_true.mp h
    refine ⟨(fid, newAgentConnection a b k fid n), ?_,
      by simp [newAgentConnection]⟩
    exact List.mem_map.mpr ⟨p, hp, by simp [hpk]⟩
  · rw [if_neg h]
    unfold hasDuplicate
    rw [List.any_append]
    simp [newAgentConnection]

theorem connected_contains_iff (conns : List (String × AgentConnection))
    (x : String) :
    (connectedAgentIds conns).contains x = true
      ↔ ¬ (∀ p ∈ conns, ¬(p.2.sourceId = x ∨ p.2.targetId = x)) := by
  unfold connectedAgentIds
  rw [List.contains_iff_exists_mem_beq]
  constructor
  · rintro ⟨y, hy, hbeq⟩
    have hx : x = y := by simpa using hbeq
    subst hx
    obtain ⟨p, hp, hmem⟩ := List.mem_flatMap.mp hy
    intro hall
    simp only [List.mem_cons, List.not_mem_nil, or_false] at hmem
    rcases hmem with h1 | h1
    · exact hall p hp (Or.inl h1.symm)
    · exact hall p hp (Or.inr h1.symm)
  · intro hnall
    push_neg at hnall
    obtain ⟨p, hpm, hor⟩ := hnall
    rcases hor with h1 | h1
    · exact ⟨x, List.mem_flatMap.mpr ⟨p, hpm, by simp [h1.symm]⟩, by simp⟩
    · exact ⟨x, List.mem_flatMap.mpr ⟨p, hpm, by simp [h1.symm]⟩, by simp⟩

theorem warnings_filterMap (conns : List (String × AgentConnection)) :
    ∀ nodes : List AgentNode,
      nodes.filterMap
        (fun a => if (connectedAgentIds conns).contains a.id then none
                  else some (notConnectedWarning a.name))
        = (nodes.filter (fun a => decide (∀ p ∈ conns,
            ¬(p.2.sourceId = a.id ∨ p.2.targetId = a.id)))).map
            (fun a => notConnectedWarning a.name)
  | [] => rfl
  | a :: tl => by
    by_cases hc : (connectedAgentIds conns).contains a.id = true
    · have hdec : decide (∀ p ∈ conns,
          ¬(p.2.sourceId = a.id ∨ p.2.targetId = a.id)) = false := by
        rw [decide_eq_false_iff_not]
        exact (connected_contains_iff conns a.id).mp hc
      rw [List.filterMap_cons_none (by rw [if_pos hc]),
        List.filter_cons_of_neg (by simp [hdec]),
        warnings_filterMap conns tl]
    · have hiso : ∀ p ∈ conns, ¬(p.2.sourceId = a.id ∨ p.2.targetId = a.id) := by
        by_contra hx
        exact hc ((connected_contains_iff conns a.id).mpr hx)
      have hdec : decide (∀ p ∈ conns,
          ¬(p.2.sourceId = a.id ∨ p.2.targetId = a.id)) = true :=
        decide_eq_true hiso
      rw [List.filterMap_cons_some (by rw [if_neg hc]),
        List.filter_cons_of_pos (by rw [hdec]),
        List.map_cons, warnings_filterMap conns tl]

theorem fromJSON_connection_id (c : AgentConnection) :
    AgentConnection.fromJSON c = c := by
  cases c
  rfl

theorem fromJSON_node_of_name_ne (a : AgentNode) (h : a.name ≠ "") :
    AgentNode.fromJSON a = a := by
  cases a with
  | mk id type x y name status capabilities createdAt =>
    simp only [AgentNode.fromJSON, newAgentNode]
    simp at h
    simp [h]

theorem foldl_mapSet_nodup {α : Type} (key : α → String) :
    ∀ (xs acc : List (String × α)),
      (∀ p ∈ xs, p.1 = key p.2) →
      ((acc ++ xs).map Prod.fst).Nodup →
      (xs.map Prod.snd).foldl (fun m v => mapSet m (key v) v) acc = acc ++ xs
  | [], acc, _, _ => by simp
  | (k, v) :: tl, acc, hkey, hnodup => by
    have hk : k = key v := hkey (k, v) (by simp)
    have hknotacc : ∀ q ∈ acc, q.1 ≠ k := by
      intro q hq hqk
      have hdisj : (acc.map Prod.fst).Disjoint (((k, v) :: tl).map Prod.fst) := by
        apply List.disjoint_of_nodup_append
        rw [← List.map_append]
        exact hnodup
      exact hdisj (List.mem_map.mpr ⟨q, hq, hqk⟩) (by simp)
    have hstep : mapSet acc (key v) v = acc ++ [(k, v)] := by
      rw [← hk]
      unfold mapSet
      rw [if_neg ?hn]
      case hn =>
        intro hc
        obtain ⟨q, hq, hqk⟩ := List.any_eq_true.mp hc
        exact hknotacc q hq (by simpa using hqk)
    simp only [List.map_cons, List.foldl_cons]
    rw [hstep, foldl_mapSet_nodup key tl (acc ++ [(k, v)])
      (fun p hp => hkey p (by simp [hp]))
      (by rw [show (acc ++ [(k, v)]) ++ tl = acc ++ (k, v) :: tl by simp]
          exact hnodup)]
    simp

/-! ### Claim theorems -/

/-- C5: `addEdge(a, a, kind)` is always rejected (`null`, state
unchanged), for any node `a` and any kind; and a second
`addEdge(a, b, kind2)` after a first `addEdge(a, b, kind1)` is always
rejected regardless of `kind2`, leaving the connection count unchanged
after the second call. -/
theorem createConnection_self_and_duplicate_rejected :
    (∀ (d : FlowDiagram) (a k fid : String) (n : Nat),
        createConnection d a a k fid n = (d, none))
    ∧ (∀ (d : FlowDiagram) (a b k1 k2 fid1 fid2 : String) (n1 n2 : Nat),
        createConnection (createConnection d a b k1 fid1 n1).1 a b k2 fid2 n2
          = ((createConnection d a b k1 fid1 n1).1, none)
        ∧ (createConnection (createConnection d a b k1 fid1 n1).1
            a b k2 fid2 n2).1.connections.length
          = (createConnection d a b k1 fid1 n1).1.connections.length) := by
  constructor
  · intro d a k fid n
    simp [createConnection]
  · intro d a b k1 k2 fid1 fid2 n1 n2
    have hmain : createConnection (createConnection d a b k1 fid1 n1).1
        a b k2 fid2 n2 = ((createConnection d a b k1 fid1 n1).1, none) := by
      by_cases hab : (a == b) = true
      · simp [createConnection, hab]
      · by_cases hdup : hasDuplicate d.connections a b = true
        · simp [createConnection, hab, hdup]
        · have hfst : (createConnection d a b k1 fid1 n1).1
              = addToUndoStack
                  { d with connections := (mapSet d.connections fid1
                      (newAgentConnection a b k1 fid1 n1)) }
                  (HistoryAction.connectionCreated
                    (newAgentConnection a b k1 fid1 n1)) := by
            unfold createConnection
            rw [if_neg hab, if_neg hdup]
            rfl
          rw [hfst]
          unfold createConnection
          rw [if_neg hab, if_pos ?hd]
          case hd =>
            show hasDuplicate (addToUndoStack _ _).connections a b = true
            simpa [addToUndoStack] using
              hasDuplicate_mapSet_self d.connections a b k1 fid1 n1
    exact ⟨hmain, by rw [hmain]⟩

/-- C7: after a successful `addEdge`, `undo()` removes exactly that
edge; a following `redo()` re-inserts it with the same id; `undo()`
(resp. `redo()`) on an empty corresponding stack is a no-op leaving all
state unchanged; and recording any new action clears the redo stack.
The fresh-id hypothesis (`mapGet d.connections fid = none`) models the
uniqueness the source's id generator provides. -/
theorem undo_redo_after_addEdge :
    (∀ (d : FlowDiagram) (a b k fid : String) (n : Nat)
        (c : AgentConnection),
        mapGet d.connections fid = none →
        (createConnection d a b k fid n).2 = some c →
        (undo (createConnection d a b k fid n).1).connections = d.connections
        ∧ (redo (undo (createConnection d a b k fid n).1)).connections
            = (createConnection d a b k fid n).1.connections
        ∧ mapGet (redo (undo (createConnection d a b k fid n).1)).connections
            fid = some c)
    ∧ (∀ d : FlowDiagram, d.undoStack = [] → undo d = d)
    ∧ (∀ d : FlowDiagram, d.redoStack = [] → redo d = d)
    ∧ (∀ (d : FlowDiagram) (action : HistoryAction),
        (addToUndoStack d action).redoStack = []) := by
  refine ⟨?_, ?_, ?_, ?_⟩
  · intro d a b k fid n c hfresh hsucc
    by_cases hab : (a == b) = true
    · exfalso
      unfold createConnection at hsucc
      rw [if_pos hab] at hsucc
      simp at hsucc
    · by_cases hdup : hasDuplicate d.connections a b = true
      · exfalso
        unfold createConnection at hsucc
        rw [if_neg hab, if_pos hdup] at hsucc
        simp at hsucc
      · have hfst : createConnection d a b k fid n
            = (addToUndoStack
                { d with connections := (mapSet d.connections fid
                    (newAgentConnection a b k fid n)) }
                (HistoryAction.connectionCreated
                  (newAgentConnection a b k fid n)),
               some (newAgentConnection a b k fid n)) := by
          unfold createConnection
          rw [if_neg hab, if_neg hdup]
          rfl
        rw [hfst] at hsucc ⊢
        have hc : c = newAgentConnection a b k fid n := by
          simpa using hsucc.symm
        subst hc
        have hid : (newAgentConnection a b k fid n).id = fid := rfl
        have hundo : undo (addToUndoStack
            { d with connections := (mapSet d.connections fid
                (newAgentConnection a b k fid n)) }
            (HistoryAction.connectionCreated
              (newAgentConnection a b k fid n)))
            = { d with
                connections := (mapDelete (mapSet d.connections fid
                  (newAgentConnection a b k fid n)) fid)
                undoStack := d.undoStack
                redoStack := [HistoryAction.connectionCreated
                  (newAgentConnection a b k fid n)] } := by
          unfold addToUndoStack undo
          rfl
        rw [hundo]
        have hdel : mapDelete (mapSet d.connections fid
            (newAgentConnection a b k fid n)) fid = d.connections :=
          mapDelete_mapSet_fresh d.connections fid _ hfresh
        refine ⟨by simpa using hdel, ?_, ?_⟩
        · unfold redo
          simp only [addToUndoStack]
          rw [hdel]
          rfl
        · unfold redo
          simp only
          rw [hdel]
          exact mapGet_mapSet_self d.connections fid _
  · intro d h
    unfold undo
    rw [h]
  · intro d h
    unfold redo
    rw [h]
  · intro d action
    rfl

/-- C7 witness: the reject-free instance on `pairDiagram` with fresh id
`c1`, every hypothesis discharged by computation. -/
theorem undo_redo_after_addEdge_witness :
    mapGet pairDiagram.connections "c1" = none
    ∧ (createConnection pairDiagram "a" "b" "data" "c1" 5).2
        = some (newAgentConnection "a" "b" "data" "c1" 5)
    ∧ ((undo (createConnection pairDiagram "a" "b" "data" "c1" 5).1).connections
        = pairDiagram.connections
      ∧ (redo (undo (createConnection pairDiagram "a" "b" "data" "c1" 5).1)).connections
          = (createConnection pairDiagram "a" "b" "data" "c1" 5).1.connections
      ∧ mapGet (redo (undo (createConnection pairDiagram "a" "b" "data"
          "c1" 5).1)).connections "c1"
          = some (newAgentConnection "a" "b" "data" "c1" 5)) :=
  ⟨by rfl, by rfl,
    undo_redo_after_addEdge.1 pairDiagram "a" "b" "data" "c1" 5
      (newAgentConnection "a" "b" "data" "c1" 5) (by rfl) (by rfl)⟩

/-- C10 (implicit): `undo()` of an edge-removed entry and `redo()` of an
edge-created entry `set` the stored edge unconditionally — no check
that its endpoints are live — and the concrete sequence
`addEdge(a,b)`; `removeNode(a)`; `undo()`; `redo()` leaves the model
with an edge whose source node does not exist. -/
theorem undo_redo_insert_unconditionally :
    (∀ (d : FlowDiagram) (c : AgentConnection) (rest : List HistoryAction),
        d.undoStack = HistoryAction.connectionRemoved c :: rest →
        mapGet (undo d).connections c.id = some c)
    ∧ (∀ (d : FlowDiagram) (c : AgentConnection) (rest : List HistoryAction),
        d.redoStack = HistoryAction.connectionCreated c :: rest →
        mapGet (redo d).connections c.id = some c)
    ∧ (mapGet seqState4.connections "c1"
        = some (newAgentConnection "a" "b" "data" "c1" 5)
      ∧ (mapGet seqState4.connections "c1").map AgentConnection.sourceId
          = some "a"
      ∧ mapGet seqState4.agents "a" = none) := by
  refine ⟨?_, ?_, by decide⟩
  · intro d c rest h
    unfold undo
    rw [h]
    exact mapGet_mapSet_self _ c.id c
  · intro d c rest h
    unfold redo
    rw [h]
    exact mapGet_mapSet_self _ c.id c

/-- C10 witness: the unconditional re-insertion applied to a concrete
state whose undo stack holds an edge-removed entry for the edge a→b
while no node exists at all. -/
theorem undo_redo_insert_unconditionally_witness :
    ({ emptyDiagram with
        undoStack := [HistoryAction.connectionRemoved edgeAB] }
      : FlowDiagram).undoStack
      = HistoryAction.connectionRemoved edgeAB :: []
    ∧ mapGet (undo { emptyDiagram with
        undoStack := [HistoryAction.connectionRemoved edgeAB] }).connections
        edgeAB.id = some edgeAB :=
  ⟨rfl, undo_redo_insert_unconditionally.1
    { emptyDiagram with
      undoStack := [HistoryAction.connectionRemoved edgeAB] }
    edgeAB [] rfl⟩

/-- C1: on any state satisfying the no-dangling-edge invariant,
`removeNode(id)` leaves no edge whose `sourceId` or `targetId` equals
`id`, preserves the invariant (no dangling edge ever exists), and
clears the selection when the removed node was selected. -/
theorem removeAgent_cascades :
    ∀ (d : FlowDiagram) (agentId : String), NoDangling d →
      (∀ p ∈ (removeAgent d agentId).connections,
          p.2.sourceId ≠ agentId ∧ p.2.targetId ≠ agentId)
      ∧ NoDangling (removeAgent d agentId)
      ∧ (d.selectedAgent = some agentId →
          (mapGet d.agents agentId).isSome →
          (removeAgent d agentId).selectedAgent = none) := by
  intro d agentId hnd
  cases hget : mapGet d.agents agentId with
  | none =>
    have hra : removeAgent d agentId = d := by
      unfold removeAgent
      rw [hget]
    rw [hra]
    refine ⟨?_, hnd, ?_⟩
    · intro p hp
      constructor
      · intro hs
        have h1 := (hnd p hp).1
        rw [hs, hget] at h1
        simp at h1
      · intro ht
        have h1 := (hnd p hp).2
        rw [ht, hget] at h1
        simp at h1
    · intro _ hsome
      simp at hsome
  | some agent =>
    have hra : removeAgent d agentId
        = { d with
            connections := d.connections.filter
              (fun p => !(p.2.sourceId == agentId || p.2.targetId == agentId))
            agents := mapDelete d.agents agentId
            selectedAgent :=
              if d.selectedAgent == some agentId then none
              else d.selectedAgent } := by
      unfold removeAgent
      rw [hget]
    rw [hra]
    refine ⟨?_, ?_, ?_⟩
    · intro p hp
      have hmem := List.mem_filter.mp hp
      have hcond : ¬ p.2.sourceId = agentId ∧ ¬ p.2.targetId = agentId := by
        simpa [not_or] using hmem.2
      exact hcond
    · intro p hp
      have hmem := List.mem_filter.mp hp
      have hcond : ¬ p.2.sourceId = agentId ∧ ¬ p.2.targetId = agentId := by
        simpa [not_or] using hmem.2
      have horig := hnd p hmem.1
      constructor
      · show (mapGet (mapDelete d.agents agentId) p.2.sourceId).isSome
        rw [mapGet_mapDelete_ne d.agents agentId p.2.sourceId hcond.1]
        exact horig.1
      · show (mapGet (mapDelete d.agents agentId) p.2.targetId).isSome
        rw [mapGet_mapDelete_ne d.agents agentId p.2.targetId hcond.2]
        exact horig.2
    · intro hsel _
      show (if d.selectedAgent == some agentId then none
            else d.selectedAgent) = none
      rw [hsel]
      simp

/-- C1 witness: cascade on `connectedDiagram` (nodes a, b; edge a→b; no
dangling edges) removing node `a`. -/
theorem removeAgent_cascades_witness :
    NoDangling connectedDiagram
    ∧ ((∀ p ∈ (removeAgent connectedDiagram "a").connections,
          p.2.sourceId ≠ "a" ∧ p.2.targetId ≠ "a")
      ∧ NoDangling (removeAgent connectedDiagram "a")
      ∧ (connectedDiagram.selectedAgent = some "a" →
          (mapGet connectedDiagram.agents "a").isSome →
          (removeAgent connectedDiagram "a").selectedAgent = none)) :=
  ⟨by decide, removeAgent_cascades connectedDiagram "a" (by decide)⟩

/-- C8: `validateFlow` produces exactly one not-connected warning per
node with zero incident edges (incoming or outgoing), in node order,
and `isValid` equals `errors.length === 0` — warnings never affect
validity. -/
theorem validateFlow_warnings_and_validity :
    ∀ d : FlowDiagram,
      (validateFlow d).warnings
        = ((d.agents.map Prod.snd).filter
            (fun a => decide (∀ p ∈ d.connections,
              ¬(p.2.sourceId = a.id ∨ p.2.targetId = a.id)))).map
            (fun a => notConnectedWarning a.name)
      ∧ (validateFlow d).isValid = (validateFlow d).errors.isEmpty := by
  intro d
  constructor
  · have h0 : (validateFlow d).warnings
        = (d.agents.map Prod.snd).filterMap
            (fun a => if (connectedAgentIds d.connections).contains a.id
                      then none else some (notConnectedWarning a.name)) := rfl
    rw [h0, warnings_filterMap]
  · rfl

/-- C9 counterexample: on the empty model (no planner, no executor) the
errors are `Missing Planner agent` / `Missing Executor agent`; the
strings `Missing planner` / `Missing executor` the claim asserts are
not among them. -/
theorem missing_role_text_counterexample :
    (∀ a ∈ emptyDiagram.agents.map Prod.snd, a.type ≠ "planner")
    ∧ (∀ a ∈ emptyDiagram.agents.map Prod.snd, a.type ≠ "executor")
    ∧ (validateFlow emptyDiagram).errors
        = ["Missing Planner agent", "Missing Executor agent"]
    ∧ "Missing planner" ∉ (validateFlow emptyDiagram).errors
    ∧ "Missing executor" ∉ (validateFlow emptyDiagram).errors
    ∧ (validateFlow emptyDiagram).isValid = false := by
  decide

/-- C9 (amended): with no planner node and no executor node,
`validateFlow` reports the errors `Missing Planner agent` and
`Missing Executor agent` (format `Missing <Role> agent`) and
`isValid` is `false`. -/
theorem validateFlow_missing_roles :
    ∀ d : FlowDiagram,
      (∀ a ∈ d.agents.map Prod.snd, a.type ≠ "planner") →
      (∀ a ∈ d.agents.map Prod.snd, a.type ≠ "executor") →
      "Missing Planner agent" ∈ (validateFlow d).errors
      ∧ "Missing Executor agent" ∈ (validateFlow d).errors
      ∧ (validateFlow d).isValid = false := by
  intro d hp he
  have hpc : (d.agents.map Prod.snd).filter (fun a => a.type == "planner")
      = [] := by
    rw [List.filter_eq_nil_iff]
    intro a ha
    simp [hp a ha]
  have hec : (d.agents.map Prod.snd).filter (fun a => a.type == "executor")
      = [] := by
    rw [List.filter_eq_nil_iff]
    intro a ha
    simp [he a ha]
  have h0 : (validateFlow d).errors
      = (if detectCircularLoops d then ["Circular loop detected in flow"]
         else [])
        ++ (if ((d.agents.map Prod.snd).filter
              (fun a => a.type == "planner")).length == 0
            then ["Missing Planner agent"] else [])
        ++ (if ((d.agents.map Prod.snd).filter
              (fun a => a.type == "executor")).length == 0
            then ["Missing Executor agent"] else []) := rfl
  have herr : (validateFlow d).errors
      = (if detectCircularLoops d then ["Circular loop detected in flow"]
         else []) ++ ["Missing Planner agent"] ++ ["Missing Executor agent"] := by
    rw [h0, hpc, hec]
    simp
  have hval : (validateFlow d).isValid = (validateFlow d).errors.isEmpty := rfl
  refine ⟨?_, ?_, ?_⟩
  · rw [herr]
    simp
  · rw [herr]
    simp
  · rw [hval, herr]
    rcases Bool.eq_false_or_eq_true (detectCircularLoops d) with hd | hd <;>
      simp [hd]

/-- C9 witness: the amended theorem applied to the empty model. -/
theorem validateFlow_missing_roles_witness :
    (∀ a ∈ emptyDiagram.agents.map Prod.snd, a.type ≠ "planner")
    ∧ (∀ a ∈ emptyDiagram.agents.map Prod.snd, a.type ≠ "executor")
    ∧ ("Missing Planner agent" ∈ (validateFlow emptyDiagram).errors
      ∧ "Missing Executor agent" ∈ (validateFlow emptyDiagram).errors
      ∧ (validateFlow emptyDiagram).isValid = false) :=
  ⟨by decide, by decide,
    validateFlow_missing_roles emptyDiagram (by decide) (by decide)⟩

/-- C3 counterexample: a model holding a node whose `name` is the empty
string does not round-trip — `fromJSON` runs the constructor's
`name || generateName(type)` fallback and regenerates the default name,
so the node's fields are not all preserved. -/
theorem import_export_roundtrip_counterexample :
    emptyNameNode.name = ""
    ∧ (importFlow emptyNameDiagram (exportFlow emptyNameDiagram)).agents
        ≠ emptyNameDiagram.agents
    ∧ (mapGet (importFlow emptyNameDiagram
        (exportFlow emptyNameDiagram)).agents "a").map AgentNode.name
        = some "PlannerAgent" := by
  decide

/-- C3 (amended): for every model whose maps are well-formed (each entry
keyed by its entity's id, keys distinct — always true for states built
by the class) and in which every node's `name` is non-empty,
`import(export(M))` reproduces the same node ids and field values and
the same edge set, with original ids preserved. -/
theorem import_export_roundtrip :
    ∀ d : FlowDiagram,
      (∀ p ∈ d.agents, p.1 = p.2.id) →
      (d.agents.map Prod.fst).Nodup →
      (∀ p ∈ d.connections, p.1 = p.2.id) →
      (d.connections.map Prod.fst).Nodup →
      (∀ p ∈ d.agents, p.2.name ≠ "") →
      (importFlow d (exportFlow d)).agents = d.agents
      ∧ (importFlow d (exportFlow d)).connections = d.connections := by
  intro d hka hna hkc hnc hname
  constructor
  · have h0 : (importFlow d (exportFlow d)).agents
        = (d.agents.map Prod.snd).foldl
            (fun m a => mapSet m (AgentNode.fromJSON a).id
              (AgentNode.fromJSON a)) [] := rfl
    have hcong : (d.agents.map Prod.snd).foldl
        (fun m a => mapSet m (AgentNode.fromJSON a).id
          (AgentNode.fromJSON a)) []
        = (d.agents.map Prod.snd).foldl
            (fun m a => mapSet m (AgentNode.id a) a) [] := by
      apply List.foldl_ext
      intro m a ha
      obtain ⟨p, hp, hpa⟩ := List.mem_map.mp ha
      have : AgentNode.fromJSON a = a :=
        fromJSON_node_of_name_ne a (by rw [← hpa]; exact hname p hp)
      rw [this]
    rw [h0, hcong]
    have := foldl_mapSet_nodup AgentNode.id d.agents [] hka
      (by simpa using hna)
    simpa using this
  · have h0 : (importFlow d (exportFlow d)).connections
        = (d.connections.map Prod.snd).foldl
            (fun m c => mapSet m (AgentConnection.fromJSON c).id
              (AgentConnection.fromJSON c)) [] := rfl
    have hcong : (d.connections.map Prod.snd).foldl
        (fun m c => mapSet m (AgentConnection.fromJSON c).id
          (AgentConnection.fromJSON c)) []
        = (d.connections.map Prod.snd).foldl
            (fun m c => mapSet m (AgentConnection.id c) c) [] := by
      apply List.foldl_ext
      intro m c _
      rw [fromJSON_connection_id]
    rw [h0, hcong]
    have := foldl_mapSet_nodup AgentConnection.id d.connections [] hkc
      (by simpa using hnc)
    simpa using this

/-- C3 witness: the round-trip applied to `connectedDiagram` (two named
nodes, one edge). -/
theorem import_export_roundtrip_witness :
    (∀ p ∈ connectedDiagram.agents, p.1 = p.2.id)
    ∧ (connectedDiagram.agents.map Prod.fst).Nodup
    ∧ (∀ p ∈ connectedDiagram.connections, p.1 = p.2.id)
    ∧ (connectedDiagram.connections.map Prod.fst).Nodup
    ∧ (∀ p ∈ connectedDiagram.agents, p.2.name ≠ "")
    ∧ ((importFlow connectedDiagram (exportFlow connectedDiagram)).agents
        = connectedDiagram.agents
      ∧ (importFlow connectedDiagram
          (exportFlow connectedDiagram)).connections
        = connectedDiagram.connections) :=
  ⟨by decide, by decide, by decide, by decide, by decide,
    import_export_roundtrip connectedDiagram (by decide) (by decide)
      (by decide) (by decide) (by decide)⟩

/-- C2 bug evidence: `cycleDiagram` contains the directed 3-cycle
a→b→c→a (and satisfies the role policy), yet `detectCircularLoops`
returns `false` — the `return true` inside the `connections.forEach`
callback never propagates — so `validateFlow` reports no cycle error
and `isValid = true`, contradicting the claim. -/
theorem cycle_detection_misses_three_cycle :
    (∃ p ∈ cycleDiagram.connections,
      p.2.sourceId = "a" ∧ p.2.targetId = "b")
    ∧ (∃ p ∈ cycleDiagram.connections,
      p.2.sourceId = "b" ∧ p.2.targetId = "c")
    ∧ (∃ p ∈ cycleDiagram.connections,
      p.2.sourceId = "c" ∧ p.2.targetId = "a")
    ∧ detectCircularLoops cycleDiagram = false
    ∧ (validateFlow cycleDiagram).errors = []
    ∧ (validateFlow cycleDiagram).isValid = true := by
  decide

/-- C4 bug evidence: `createConnection` never checks that the ids
reference live nodes — on a model whose only node is `a`, adding an
edge to the unknown id `zzz` succeeds (returns the new edge, not
`null`) and grows the edge set, contradicting the claim (and the
central no-dangling-edge invariant). -/
theorem createConnection_accepts_unknown_ids :
    mapGet singleDiagram.agents "zzz" = none
    ∧ singleDiagram.connections = []
    ∧ (createConnection singleDiagram "a" "zzz" "data" "c1" 5).2
        = some (newAgentConnection "a" "zzz" "data" "c1" 5)
    ∧ (createConnection singleDiagram "a" "zzz" "data" "c1" 5).1.connections
        = [("c1", newAgentConnection "a" "zzz" "data" "c1" 5)] := by
  decide

/-- C6 bug evidence: `handleWheel` feeds the MODEL-space point
`getMousePosition` returns into the anchor formula stated for the
SCREEN-space point, so zoom is not anchor-preserving once the offset is
non-zero: with `offsetX = 50`, `scale = 1`, screen point `(100, 0)` and
factor `1.1`, the model point under the cursor moves from `50` to
`500/11` — an exact gap of `50/11 ≈ 4.5`, far beyond floating-point
tolerance. -/
theorem handleWheel_not_anchor_preserving :
    zoomDiagram.offsetX = 50 ∧ zoomDiagram.scale = 1
    ∧ getMousePosition zoomDiagram 100 0 = (50, 0)
    ∧ getMousePosition (handleWheel zoomDiagram 100 0 (11/10)) 100 0
        = (500/11, 0)
    ∧ ((500 : Rat)/11 ≠ 50)
    ∧ ((50 : Rat) - 500/11 = 50/11)
    ∧ ((4 : Rat) < 50/11) := by
  refine ⟨rfl, rfl, ?_, ?_, by norm_num, by norm_num, by norm_num⟩
  · show ((100 - 50) / 1, ((0 : Rat) - 0) / 1) = ((50 : Rat), (0 : Rat))
    norm_num
  · show (((100 : Rat) - _) / _, ((0 : Rat) - _) / _) = _
    unfold handleWheel getMousePosition zoomDiagram emptyDiagram
    norm_num

end Flow
